import Mathlib

/-!
Shallow embedding of `src/borg-id-verify.py` (BorgBackup-ID-Verify v1.01a)
and verification of the specification's claims about it.

The program keeps, per repository, a baseline file `.{name}.id` holding one
identifier per line, compares it against the live `borg list` output, and
rewrites the baseline when it has grown in an append-only way.  We embed:

* the Baseline Store (`write_id_file` / `read_id_file`) at the level of raw
  file contents (a `List Char`), so that the write/read round trip is a real
  theorem and not baked into the model;
* the comparison loop `compare_ids` exactly as the indexed Python loop,
  including its early break on truncation and its continue-on-mismatch
  diagnostics;
* the per-repository body of `check_repos` as a pure transition function
  `reconcile` on an explicit file-system state, with explicit flags for the
  fallibility of each OS operation the code performs (`os.remove`,
  `os.rename`, the final write), and the aggregation loop plus
  `sanity_check` as `program_exit`;
* the provider adapter's post-processing of a successful `borg list` run
  (`get_borg_id_info`), at the byte level, faithfully enough to capture the
  dynamic-typing behaviour of its filtering comprehension.

The external listing provider itself (process spawning, transport) is
modelled at its interface boundary, as an `Option (List String)` oracle
(`none` = borg exited non-zero), following the specification's scoping of
the provider as an external collaborator whose output contract alone is
relevant to the reconciliation engine.
-/

namespace BorgIdVerify

/-- State of one file path on disk: missing, present with raw character
content, or present but failing to read (`open`/read raises `IOError`,
which `read_id_file` catches). -/
inductive FileData where
  | absent
  | present (content : List Char)
  | unreadable
  deriving DecidableEq

/-- The two files the program touches for one repository: the baseline file
`.{name}.id` and its rotation target `.{name}.id.old`. -/
structure RepoState where
  idFile : FileData
  oldFile : FileData
  deriving DecidableEq

/-- Operating policy derived from the command line:
`--force`, `--init`, `--dryrun`. -/
structure Policy where
  force : Bool
  init : Bool
  dryrun : Bool
  deriving DecidableEq

/-- Per-repository run environment: the provider-adapter result for the
live listing (`none` models `borg list` exiting non-zero, so
`get_borg_id_info` returns `False` with `_borg_id_info == []`), and
success flags for the three fallible OS steps of the write block
(`os.remove` of a stale `.old`, `os.rename` of the baseline, and the
final `write_id_file`).  A `false` flag means the corresponding call
raises (`os.remove` / `os.rename`, uncaught) or fails with `IOError`
(the write, caught inside `write_id_file`). -/
structure RepoEnv where
  provider : Option (List String)
  removeOk : Bool
  renameOk : Bool
  writeOk : Bool
  deriving DecidableEq

/-- Spec-level outcome classification of a single repository
reconciliation; derived from the branch of `check_repos` taken and the
diagnostics it prints. -/
inductive Outcome where
  | matched
  | extended
  | diverged
  | missingBaseline
  | providerFailure
  | storeFailure
  deriving DecidableEq

/-- Result of reconciling one repository: its outcome classification, the
`write_file` flag after classification (spec `should_write`), whether this
repository set `ret_code = 1`, whether an actual baseline write happened,
whether an uncaught exception escaped the write block, and the resulting
file state. -/
structure RunResult where
  outcome : Outcome
  shouldWrite : Bool
  ret1 : Bool
  wrote : Bool
  exc : Bool
  state : RepoState

/-! ### Baseline Store

`write_id_file` writes `f"{line}\n"` for each entry of the listing;
`read_id_file` iterates the file line by line and strips the trailing
newline of each line, exactly as Python file iteration plus
`line.strip('\n')` does: chunks are maximal runs ending at a `'\n'`, and a
final chunk without a newline is still yielded. -/

/-- Raw file content produced by `write_id_file`: each listing entry
followed by a newline character. -/
def write_id_file (lines : List String) : List Char :=
  lines.foldr (fun l acc => l.data ++ '\n' :: acc) []

/-- One step of Python text-file line iteration combined with
`line.strip('\n')`: accumulate characters (in reverse) until a newline,
emit the accumulated line, and yield a trailing newline-less chunk only
when it is nonempty. -/
def splitLinesGo (acc : List Char) : List Char → List String
  | [] => if acc.isEmpty then [] else [String.mk acc.reverse]
  | c :: cs =>
    if c = '\n' then String.mk acc.reverse :: splitLinesGo [] cs
    else splitLinesGo (c :: acc) cs

/-- Parse raw file content into the list of identifier lines, as
`read_id_file` does via `[line.strip('\n') for line in file_handle]`. -/
def read_id_file (content : List Char) : List String :=
  splitLinesGo [] content

theorem splitLinesGo_append (cs : List Char) (h : '\n' ∉ cs) :
    ∀ (acc rest : List Char),
      splitLinesGo acc (cs ++ '\n' :: rest) =
        String.mk (acc.reverse ++ cs) :: splitLinesGo [] rest := by
  induction cs with
  | nil =>
    intro acc rest
    simp [splitLinesGo]
  | cons c cs ih =>
    intro acc rest
    have hc : c ≠ '\n' := by
      intro heq
      exact h (heq ▸ List.mem_cons_self c cs)
    have hcs : '\n' ∉ cs := fun hm => h (List.mem_cons_of_mem c hm)
    have step : splitLinesGo acc ((c :: cs) ++ '\n' :: rest) =
        splitLinesGo (c :: acc) (cs ++ '\n' :: rest) := by
      simp [splitLinesGo, hc]
    rw [step, ih hcs (c :: acc) rest]
    simp

/-- Round trip of the Baseline Store: reading back exactly what was
written yields the original listing, provided no entry embeds a newline
character. -/
theorem read_write_id (lines : List String)
    (h : ∀ l ∈ lines, '\n' ∉ l.data) :
    read_id_file (write_id_file lines) = lines := by
  induction lines with
  | nil => rfl
  | cons l rest ih =>
    have hl : '\n' ∉ l.data := h l (List.mem_cons_self l rest)
    have hrest : ∀ x ∈ rest, '\n' ∉ x.data :=
      fun x hx => h x (List.mem_cons_of_mem l hx)
    show splitLinesGo [] (l.data ++ '\n' :: write_id_file rest) = l :: rest
    rw [splitLinesGo_append l.data hl [] (write_id_file rest)]
    simp only [List.reverse_nil, List.nil_append]
    exact congrArg (l :: ·) (ih hrest)

/-! ### Comparison loop

`compare_ids` mirrors the Python loop over `enumerate(self._file_id_info)`:
on `idx >= len(self._borg_id_info)` it reports the index and breaks; on a
content mismatch it reports the index, records failure and continues
scanning (diagnostics only).  We return the final boolean together with
the ordered list of reported error indices. -/

/-- The loop body of `compare_ids`, scanning the stored file entries
against the live borg listing `borg` starting at index `idx`. -/
def compare_ids_go (borg : List String) : Nat → List String → Bool × List Nat
  | _, [] => (true, [])
  | idx, fid :: rest =>
    if borg.length ≤ idx then (false, [idx])
    else if borg.get? idx ≠ some fid then
      (false, idx :: (compare_ids_go borg (idx + 1) rest).2)
    else compare_ids_go borg (idx + 1) rest

/-- `compare_ids` of the stored file listing against the live borg
listing: final verdict plus ordered reported divergence indices. -/
def compare_ids (fileIds borgIds : List String) : Bool × List Nat :=
  compare_ids_go borgIds 0 fileIds

theorem compare_go_break (borg : List String) :
    ∀ (file : List String) (idx : Nat), idx ≤ borg.length →
      borg.length < idx + file.length →
      (compare_ids_go borg idx file).1 = false ∧
      ∃ pre, (compare_ids_go borg idx file).2 = pre ++ [borg.length] ∧
        ∀ k ∈ pre, k < borg.length := by
  intro file
  induction file with
  | nil =>
    intro idx h1 h2
    simp only [List.length_nil, Nat.add_zero] at h2
    omega
  | cons fid rest ih =>
    intro idx h1 h2
    by_cases hb : borg.length ≤ idx
    · have heq : idx = borg.length := Nat.le_antisymm h1 hb
      refine ⟨?_, [], ?_, ?_⟩
      · simp [compare_ids_go, hb]
      · simp [compare_ids_go, hb, heq]
      · intro k hk
        simp at hk
    · have hlt : idx < borg.length := Nat.lt_of_not_le hb
      have h2' : borg.length < (idx + 1) + rest.length := by
        simp only [List.length_cons] at h2
        omega
      obtain ⟨hret, pre, hpre, hk⟩ := ih (idx + 1) hlt h2'
      by_cases hm : borg.get? idx = some fid
      · have hm' : borg[idx]? = some fid := by simpa using hm
        have hstep : compare_ids_go borg idx (fid :: rest) =
            compare_ids_go borg (idx + 1) rest := by
          simp [compare_ids_go, hb, hm']
        rw [hstep]
        exact ⟨hret, pre, hpre, hk⟩
      · have hm' : ¬ borg[idx]? = some fid := by simpa using hm
        refine ⟨?_, idx :: pre, ?_, ?_⟩
        · simp [compare_ids_go, hb, hm']
        · simp [compare_ids_go, hb, hm', hpre]
        · intro k hkm
          rcases List.mem_cons.mp hkm with h | h
          · omega
          · exact hk k h

theorem compare_go_head (borg : List String) :
    ∀ (file : List String) (idx i : Nat),
      idx + file.length ≤ borg.length → i < file.length →
      (∀ j, j < i → borg.get? (idx + j) = file.get? j) →
      borg.get? (idx + i) ≠ file.get? i →
      (compare_ids_go borg idx file).1 = false ∧
      (compare_ids_go borg idx file).2.head? = some (idx + i) := by
  intro file
  induction file with
  | nil =>
    intro idx i _ hi
    simp at hi
  | cons fid rest ih =>
    intro idx i hlen hi hbefore hmis
    have hb : ¬ borg.length ≤ idx := by
      simp only [List.length_cons] at hlen
      omega
    cases i with
    | zero =>
      have hm : ¬ borg[idx]? = some fid := by
        simpa using hmis
      constructor
      · simp [compare_ids_go, hb, hm]
      · simp [compare_ids_go, hb, hm]
    | succ i' =>
      have h0 : borg[idx]? = some fid := by
        have := hbefore 0 (Nat.succ_pos i')
        simpa using this
      have hstep : compare_ids_go borg idx (fid :: rest) =
          compare_ids_go borg (idx + 1) rest := by
        simp [compare_ids_go, hb, h0]
      have hlen' : (idx + 1) + rest.length ≤ borg.length := by
        simp only [List.length_cons] at hlen
        omega
      have hi' : i' < rest.length := by
        simp only [List.length_cons] at hi
        omega
      have hbefore' : ∀ j, j < i' → borg.get? ((idx + 1) + j) = rest.get? j := by
        intro j hj
        have := hbefore (j + 1) (by omega)
        have harith : idx + (j + 1) = (idx + 1) + j := by omega
        rw [harith] at this
        simpa using this
      have hmis' : borg.get? ((idx + 1) + i') ≠ rest.get? i' := by
        have harith : idx + (i' + 1) = (idx + 1) + i' := by omega
        rw [harith] at hmis
        simpa using hmis
      obtain ⟨hr, hh⟩ := ih (idx + 1) i' hlen' hi' hbefore' hmis'
      rw [hstep]
      refine ⟨hr, ?_⟩
      rw [hh]
      congr 1
      omega

theorem compare_go_all (borg : List String) :
    ∀ (file : List String) (idx : Nat),
      idx + file.length ≤ borg.length →
      (∀ j, j < file.length → borg.get? (idx + j) = file.get? j) →
      compare_ids_go borg idx file = (true, []) := by
  intro file
  induction file with
  | nil =>
    intro idx _ _
    rfl
  | cons fid rest ih =>
    intro idx hlen hall
    have hb : ¬ borg.length ≤ idx := by
      simp only [List.length_cons] at hlen
      omega
    have h0 : borg[idx]? = some fid := by
      have := hall 0 (Nat.succ_pos rest.length)
      simpa using this
    have hstep : compare_ids_go borg idx (fid :: rest) =
        compare_ids_go borg (idx + 1) rest := by
      simp [compare_ids_go, hb, h0]
    rw [hstep]
    refine ih (idx + 1) ?_ ?_
    · simp only [List.length_cons] at hlen
      omega
    · intro j hj
      have := hall (j + 1) (by simpa using Nat.succ_lt_succ hj)
      have harith : idx + (j + 1) = (idx + 1) + j := by omega
      rw [harith] at this
      simpa using this

/-- Comparing a listing against itself succeeds with no diagnostics. -/
theorem compare_ids_self (l : List String) : compare_ids l l = (true, []) := by
  apply compare_go_all
  · simp
  · intro j _
    simp

/-- A stored listing that is a (weak) prefix of the live listing compares
clean. -/
theorem compare_ids_of_take (file borg : List String)
    (hpre : borg.take file.length = file)
    (hle : file.length ≤ borg.length) :
    compare_ids file borg = (true, []) := by
  apply compare_go_all
  · simpa using hle
  · intro j hj
    rw [Nat.zero_add]
    conv_rhs => rw [← hpre]
    exact (List.get?_take hj).symm

/-! ### Provider adapter post-processing

`get_borg_id_info` on a successful `borg list` run executes
`[line.decode('utf-8') for line in result.stdout.splitlines()
  if not line.startswith('Removed stale shared roster lock')]`.
`result.stdout` is a bytes object (the `subprocess.run` call passes no
`text`/`encoding` argument), so each `line` is bytes, while the
`startswith` argument is a str literal.  In Python 3,
`bytes.startswith` with a str argument raises
`TypeError: startswith first arg must be bytes or a tuple of bytes`,
and the surrounding `try` only catches `subprocess.CalledProcessError`
(itself unreachable, since `check=False`).  We model a dynamically-typed
partial result and embed that call faithfully. -/

/-- Result of evaluating a piece of dynamically typed Python: either a
value or an uncaught `TypeError`. -/
inductive PyResult (α : Type) where
  | ok (a : α)
  | typeError
  deriving DecidableEq

/-- The call `line.startswith('Removed stale shared roster lock')` where
`line` is a bytes object: `bytes.startswith` requires a bytes (or tuple
of bytes) argument, so passing the str pattern raises `TypeError`
regardless of the line's content. -/
def bytes_startswith_str (_line : List Char) : PyResult Bool :=
  PyResult.typeError

/-- The filtering/decoding comprehension of `get_borg_id_info` applied to
the byte lines of `result.stdout.splitlines()`: the condition is
evaluated once per element, so an empty stdout yields an empty listing,
while any line at all raises. -/
def get_borg_id_info : List (List Char) → PyResult (List String)
  | [] => PyResult.ok []
  | l :: ls =>
    match bytes_startswith_str l with
    | PyResult.typeError => PyResult.typeError
    | PyResult.ok true => get_borg_id_info ls
    | PyResult.ok false =>
      match get_borg_id_info ls with
      | PyResult.ok rest => PyResult.ok (String.mk l :: rest)
      | PyResult.typeError => PyResult.typeError

/-! ### Reconciliation engine

Per-repository body of `check_repos` (lines 196-241 of the source),
split into the classification phase (everything before
`if write_file:`) and the write phase (the rotation and rewrite).
The live listing is taken from the provider oracle; on provider failure
`get_borg_id_info` has reset `self._borg_id_info` to `[]`, which is what
`env.provider.getD []` reproduces for the write phase. -/

/-- Classification phase of one repository: returns the spec-level
outcome together with the `write_file` flag and whether `ret_code` is
set to `1`.

* no baseline file: without `--init` the repository is skipped
  (`MissingBaseline`); with `--init` the code calls `get_borg_id_info`
  but ignores its boolean result and sets `write_file = True`
  unconditionally;
* baseline unreadable: `read_id_file` returns `False`, the `elif`
  short-circuits (`StoreFailure`);
* provider failure: `get_borg_id_info` returns `False`, the `elif`
  short-circuits (`ProviderFailure`);
* empty loaded baseline: `self._file_id_info` is falsy, the `elif`
  short-circuits with nothing to do (`Match`);
* `--force`: skip comparison, `write_file = True` (`Extended`);
* otherwise compare; on success rewrite only when the lengths differ
  (`Extended` vs `Match`); on failure set `ret_code = 1` (`Diverged`). -/
def classify (pol : Policy) (env : RepoEnv) (st : RepoState) :
    Outcome × Bool × Bool :=
  match st.idFile with
  | FileData.absent =>
    if pol.init then
      match env.provider with
      | none => (Outcome.providerFailure, true, false)
      | some _ => (Outcome.extended, true, false)
    else (Outcome.missingBaseline, false, false)
  | FileData.unreadable => (Outcome.storeFailure, false, false)
  | FileData.present c =>
    match env.provider with
    | none => (Outcome.providerFailure, false, false)
    | some live =>
      if (read_id_file c).isEmpty then (Outcome.matched, false, false)
      else if pol.force then (Outcome.extended, true, false)
      else if (compare_ids (read_id_file c) live).1 then
        if live.length ≠ (read_id_file c).length then (Outcome.extended, true, false)
        else (Outcome.matched, false, false)
      else (Outcome.diverged, false, true)

/-- Write phase of one repository, given the `write_file` flag: under
`--dryrun` nothing happens; otherwise, when the baseline file exists, a
stale `.old` file is removed (`os.remove`) and the baseline is rotated
to `.old` (`os.rename`) before the new content is written.  Failures of
`os.remove`/`os.rename` raise uncaught OS errors (second component);
a failing final write is caught inside `write_id_file` (we model the
failure as `open` raising, i.e. no new baseline appears). -/
def writePhase (pol : Policy) (env : RepoEnv) (st : RepoState)
    (borgInfo : List String) : Bool → Bool × Bool × RepoState
  | false => (false, false, st)
  | true =>
    if pol.dryrun then (false, false, st)
    else
      match st.idFile with
      | FileData.absent =>
        if env.writeOk then
          (true, false, ⟨FileData.present (write_id_file borgInfo), st.oldFile⟩)
        else (false, false, st)
      | _ =>
        if st.oldFile ≠ FileData.absent ∧ env.removeOk = false then
          (false, true, st)
        else if env.renameOk = false then
          (false, true, ⟨st.idFile, FileData.absent⟩)
        else if env.writeOk then
          (true, false, ⟨FileData.present (write_id_file borgInfo), st.idFile⟩)
        else (false, false, ⟨FileData.absent, st.idFile⟩)

/-- Reconcile one repository: classification followed by the write
phase. -/
def reconcile (pol : Policy) (env : RepoEnv) (st : RepoState) : RunResult :=
  let c := classify pol env st
  let w := writePhase pol env st (env.provider.getD []) c.2.1
  ⟨c.1, c.2.1, c.2.2, w.1, w.2.1, w.2.2⟩

/-- The repository loop of `check_repos`: `ret_code` starts at `0`, each
repository is reconciled in turn, a divergence sets `ret_code = 1`, and
an uncaught exception aborts the loop (`Except.error`).  At the end the
process exits with `ret_code`. -/
def check_repos_go (pol : Policy) :
    List (RepoEnv × RepoState) → Bool → Except Unit Nat
  | [], acc => Except.ok (if acc then 1 else 0)
  | p :: rest, acc =>
    let r := reconcile pol p.1 p.2
    if r.exc then Except.error ()
    else check_repos_go pol rest (acc || r.ret1)

/-- `check_repos` over a run's repositories. -/
def check_repos (pol : Policy) (repos : List (RepoEnv × RepoState)) :
    Except Unit Nat :=
  check_repos_go pol repos false

/-- `sanity_check`: a base path must be given and must be a directory;
otherwise the process exits with status `1` before any repository is
processed. -/
def sanity_check (basePathGiven basePathIsDir : Bool) : Bool :=
  basePathGiven && basePathIsDir

/-- Overall process exit status: `sanity_check` failure exits `1`
immediately, otherwise the repository loop decides. -/
def program_exit (basePathGiven basePathIsDir : Bool) (pol : Policy)
    (repos : List (RepoEnv × RepoState)) : Except Unit Nat :=
  if sanity_check basePathGiven basePathIsDir then check_repos pol repos
  else Except.ok 1

/-! ### Basic facts about the engine -/

theorem reconcile_outcome (p : Policy) (e : RepoEnv) (s : RepoState) :
    (reconcile p e s).outcome = (classify p e s).1 := rfl

theorem reconcile_shouldWrite (p : Policy) (e : RepoEnv) (s : RepoState) :
    (reconcile p e s).shouldWrite = (classify p e s).2.1 := rfl

theorem reconcile_ret1 (p : Policy) (e : RepoEnv) (s : RepoState) :
    (reconcile p e s).ret1 = (classify p e s).2.2 := rfl

theorem reconcile_wrote (p : Policy) (e : RepoEnv) (s : RepoState) :
    (reconcile p e s).wrote =
      (writePhase p e s (e.provider.getD []) (classify p e s).2.1).1 := rfl

theorem reconcile_exc (p : Policy) (e : RepoEnv) (s : RepoState) :
    (reconcile p e s).exc =
      (writePhase p e s (e.provider.getD []) (classify p e s).2.1).2.1 := rfl

theorem reconcile_state (p : Policy) (e : RepoEnv) (s : RepoState) :
    (reconcile p e s).state =
      (writePhase p e s (e.provider.getD []) (classify p e s).2.1).2.2 := rfl

/-- Structural facts about the classification phase: `ret_code` is set to
`1` exactly in the `Diverged` branch; a `Match` classification never sets
`write_file`; an `Extended` classification requires a successful provider
fetch. -/
theorem classify_cases (p : Policy) (e : RepoEnv) (s : RepoState) :
    ((classify p e s).2.2 = true ↔ (classify p e s).1 = Outcome.diverged) ∧
    ((classify p e s).1 = Outcome.matched →
      (classify p e s).2.1 = false ∧ (classify p e s).2.2 = false) ∧
    ((classify p e s).1 = Outcome.extended → e.provider.isSome = true) := by
  rcases hs : s.idFile with _ | c | _ <;> rcases hp : e.provider with _ | live <;>
    simp only [classify, hs, hp] <;>
    first
      | (split_ifs <;> simp)
      | simp

/-- With `write_file` unset the write phase does nothing. -/
theorem writePhase_false (p : Policy) (e : RepoEnv) (s : RepoState)
    (b : List String) : writePhase p e s b false = (false, false, s) := rfl

/-- If the write phase reports a completed write, the baseline file now
holds exactly the rendered listing and no exception occurred. -/
theorem writePhase_wrote_idFile (p : Policy) (e : RepoEnv) (s : RepoState)
    (b : List String) (sw : Bool)
    (h : (writePhase p e s b sw).1 = true) :
    (writePhase p e s b sw).2.2.idFile = FileData.present (write_id_file b) ∧
    (writePhase p e s b sw).2.1 = false := by
  cases sw with
  | false => simp [writePhase] at h
  | true =>
    by_cases hd : p.dryrun
    · simp [writePhase, hd] at h
    · rcases hs : s.idFile with _ | c | _
      · by_cases hw : e.writeOk
        · simp [writePhase, hd, hs, hw]
        · simp [writePhase, hd, hs, hw] at h
      · by_cases h1 : s.oldFile ≠ FileData.absent ∧ e.removeOk = false
        · simp [writePhase, hd, hs, h1] at h
        · by_cases h2 : e.renameOk = false
          · simp [writePhase, hd, hs, h1, h2] at h
          · by_cases hw : e.writeOk
            · simp [writePhase, hd, hs, h1, h2, hw]
            · simp [writePhase, hd, hs, h1, h2, hw] at h
      · by_cases h1 : s.oldFile ≠ FileData.absent ∧ e.removeOk = false
        · simp [writePhase, hd, hs, h1] at h
        · by_cases h2 : e.renameOk = false
          · simp [writePhase, hd, hs, h1, h2] at h
          · by_cases hw : e.writeOk
            · simp [writePhase, hd, hs, h1, h2, hw]
            · simp [writePhase, hd, hs, h1, h2, hw] at h

/-- If the baseline file holds exactly a rendered listing and the
provider returns that same listing, the classification is `Match` with
no write: the heart of idempotence. -/
theorem classify_after_write (p : Policy) (e : RepoEnv) (s : RepoState)
    (live : List String) (hforce : p.force = false)
    (hprov : e.provider = some live)
    (hnl : ∀ l ∈ live, '\n' ∉ l.data)
    (hid : s.idFile = FileData.present (write_id_file live)) :
    classify p e s = (Outcome.matched, false, false) := by
  have hread : read_id_file (write_id_file live) = live := read_write_id live hnl
  simp only [classify, hid, hprov, hread]
  by_cases he : live.isEmpty
  · simp [he]
  · simp [he, hforce, compare_ids_self]

/-! ### Claims -/

/-- C4: `compare_ids(baseline, live)` scans indices `0` up to
`len(baseline)`.  If the live listing is shorter than the baseline, the
scan reports a divergence at the truncation index `len(live)` and stops
there (it is the last reported index, and every earlier report is a
content mismatch below it).  Otherwise, a content mismatch whose smallest
index is `i` makes the comparison fail with `i` as the first reported
divergence index (scanning past `i` is diagnostics only).  If neither
occurs, the comparison succeeds with no reported index. -/
theorem claim_C4 (baseline live : List String) :
    (live.length < baseline.length →
      (compare_ids baseline live).1 = false ∧
      ∃ pre, (compare_ids baseline live).2 = pre ++ [live.length] ∧
        ∀ k ∈ pre, k < live.length) ∧
    (∀ i, baseline.length ≤ live.length → i < baseline.length →
      (∀ j, j < i → live.get? j = baseline.get? j) →
      live.get? i ≠ baseline.get? i →
      (compare_ids baseline live).1 = false ∧
      (compare_ids baseline live).2.head? = some i) ∧
    (baseline.length ≤ live.length →
      (∀ j, j < baseline.length → live.get? j = baseline.get? j) →
      compare_ids baseline live = (true, [])) := by
  refine ⟨?_, ?_, ?_⟩
  · intro h
    exact compare_go_break live baseline 0 (Nat.zero_le _) (by omega)
  · intro i hle hi hbef hmis
    have h := compare_go_head live baseline 0 i (by omega) hi
      (fun j hj => by simpa using hbef j hj) (by simpa using hmis)
    simpa using h
  · intro hle hall
    exact compare_go_all live baseline 0 (by omega)
      (fun j hj => by simpa using hall j hj)

/-- Witness for C4 at the spec's own scenario: baseline `["a","b","c"]`
against live `["a","b"]` diverges with the truncation index `2` reported
last. -/
theorem claim_C4_witness :
    (compare_ids ["a", "b", "c"] ["a", "b"]).1 = false ∧
    ∃ pre, (compare_ids ["a", "b", "c"] ["a", "b"]).2 = pre ++ [2] ∧
      ∀ k ∈ pre, k < 2 := by
  have h := (claim_C4 ["a", "b", "c"] ["a", "b"]).1 (by decide)
  simpa using h

/-- C10: Baseline Store round trip — writing a listing of newline-free
lines with `write_id_file` and reading the resulting file content back
with `read_id_file` returns exactly the original listing, in order, with
duplicates preserved. -/
theorem claim_C10 (lines : List String)
    (h : ∀ l ∈ lines, '\n' ∉ l.data) :
    read_id_file (write_id_file lines) = lines :=
  read_write_id lines h

/-- Witness for C10 on a listing with a duplicate entry. -/
theorem claim_C10_witness :
    read_id_file (write_id_file ["a", "b", "a"]) = ["a", "b", "a"] :=
  claim_C10 ["a", "b", "a"] (by decide)

/-- C5: when the stored baseline is a strict, non-empty prefix of the
live listing and neither `--force` nor `--dryrun` is set (and the OS
calls succeed), the outcome is `Extended`, the new baseline file content
is exactly the rendered live listing, and the previous baseline file has
been rotated to the `.old` slot (any prior `.old` content is discarded
first — in the final state the single `.old` path holds exactly the
previous baseline). -/
theorem claim_C5 (pol : Policy) (env : RepoEnv) (st : RepoState)
    (c : List Char) (baseline live : List String)
    (hid : st.idFile = FileData.present c)
    (hread : read_id_file c = baseline)
    (hne : baseline ≠ [])
    (hpre : live.take baseline.length = baseline)
    (hlt : baseline.length < live.length)
    (hprov : env.provider = some live)
    (hforce : pol.force = false) (hdry : pol.dryrun = false)
    (hrm : env.removeOk = true) (hrn : env.renameOk = true)
    (hw : env.writeOk = true) :
    (reconcile pol env st).outcome = Outcome.extended ∧
    (reconcile pol env st).shouldWrite = true ∧
    (reconcile pol env st).wrote = true ∧
    (reconcile pol env st).state.idFile = FileData.present (write_id_file live) ∧
    (reconcile pol env st).state.oldFile = FileData.present c := by
  have hcmp : compare_ids baseline live = (true, []) :=
    compare_ids_of_take baseline live hpre (Nat.le_of_lt hlt)
  have hne' : baseline.isEmpty = false := by
    rcases baseline with _ | ⟨x, xs⟩
    · exact absurd rfl hne
    · rfl
  have hcl : classify pol env st = (Outcome.extended, true, false) := by
    simp [classify, hid, hprov, hread, hne', hforce, hcmp, Nat.ne_of_gt hlt]
  have hwp : writePhase pol env st (env.provider.getD []) true =
      (true, false, ⟨FileData.present (write_id_file live), FileData.present c⟩) := by
    rw [hprov]
    simp [writePhase, hdry, hid, hrm, hrn, hw]
  refine ⟨?_, ?_, ?_, ?_, ?_⟩ <;>
    simp [reconcile_outcome, reconcile_shouldWrite, reconcile_wrote,
      reconcile_state, hcl, hwp]

/-- Witness for C5: baseline `["a","b"]` extended to live
`["a","b","c"]`, with a pre-existing `.old` file that gets discarded. -/
theorem claim_C5_witness :
    (reconcile ⟨false, false, false⟩ ⟨some ["a", "b", "c"], true, true, true⟩
        ⟨FileData.present (write_id_file ["a", "b"]),
          FileData.present ['x']⟩).outcome = Outcome.extended ∧
    (reconcile ⟨false, false, false⟩ ⟨some ["a", "b", "c"], true, true, true⟩
        ⟨FileData.present (write_id_file ["a", "b"]),
          FileData.present ['x']⟩).shouldWrite = true ∧
    (reconcile ⟨false, false, false⟩ ⟨some ["a", "b", "c"], true, true, true⟩
        ⟨FileData.present (write_id_file ["a", "b"]),
          FileData.present ['x']⟩).wrote = true ∧
    (reconcile ⟨false, false, false⟩ ⟨some ["a", "b", "c"], true, true, true⟩
        ⟨FileData.present (write_id_file ["a", "b"]),
          FileData.present ['x']⟩).state.idFile =
      FileData.present (write_id_file ["a", "b", "c"]) ∧
    (reconcile ⟨false, false, false⟩ ⟨some ["a", "b", "c"], true, true, true⟩
        ⟨FileData.present (write_id_file ["a", "b"]),
          FileData.present ['x']⟩).state.oldFile =
      FileData.present (write_id_file ["a", "b"]) :=
  claim_C5 ⟨false, false, false⟩ ⟨some ["a", "b", "c"], true, true, true⟩
    ⟨FileData.present (write_id_file ["a", "b"]), FileData.present ['x']⟩
    (write_id_file ["a", "b"]) ["a", "b"] ["a", "b", "c"]
    rfl (by decide) (by decide) (by decide) (by decide) rfl rfl rfl rfl rfl rfl

/-- C6 counterexample: a repository whose baseline file exists, loads
successfully and contains zero lines, but whose provider fetch fails,
is classified `ProviderFailure` (borg's error is printed and the `elif`
short-circuits before the emptiness test), not `Match` as the claim
states for every such repository. -/
theorem claim_C6_cex :
    (reconcile ⟨false, false, false⟩ ⟨none, true, true, true⟩
        ⟨FileData.present [], FileData.absent⟩).outcome =
      Outcome.providerFailure ∧
    (reconcile ⟨false, false, false⟩ ⟨none, true, true, true⟩
        ⟨FileData.present [], FileData.absent⟩).outcome ≠
      Outcome.matched := by decide

/-- C6 (amended): when a baseline file exists, loads successfully with
zero lines, and the live listing fetch succeeds, the outcome is `Match`
with `should_write = false`: no comparison is performed, nothing is
written and the file state is unchanged. -/
theorem claim_C6_amended (pol : Policy) (env : RepoEnv) (st : RepoState)
    (c : List Char) (live : List String)
    (hid : st.idFile = FileData.present c)
    (hread : read_id_file c = [])
    (hprov : env.provider = some live) :
    (reconcile pol env st).outcome = Outcome.matched ∧
    (reconcile pol env st).shouldWrite = false ∧
    (reconcile pol env st).ret1 = false ∧
    (reconcile pol env st).wrote = false ∧
    (reconcile pol env st).state = st := by
  have hcl : classify pol env st = (Outcome.matched, false, false) := by
    simp [classify, hid, hprov, hread]
  refine ⟨?_, ?_, ?_, ?_, ?_⟩ <;>
    simp [reconcile_outcome, reconcile_shouldWrite, reconcile_ret1,
      reconcile_wrote, reconcile_state, hcl, writePhase_false]

/-- Witness for the amended C6: empty baseline file, fetchable live
listing. -/
theorem claim_C6_amended_witness :
    (reconcile ⟨false, false, false⟩ ⟨some ["a"], true, true, true⟩
        ⟨FileData.present [], FileData.absent⟩).outcome = Outcome.matched ∧
    (reconcile ⟨false, false, false⟩ ⟨some ["a"], true, true, true⟩
        ⟨FileData.present [], FileData.absent⟩).shouldWrite = false ∧
    (reconcile ⟨false, false, false⟩ ⟨some ["a"], true, true, true⟩
        ⟨FileData.present [], FileData.absent⟩).ret1 = false ∧
    (reconcile ⟨false, false, false⟩ ⟨some ["a"], true, true, true⟩
        ⟨FileData.present [], FileData.absent⟩).wrote = false ∧
    (reconcile ⟨false, false, false⟩ ⟨some ["a"], true, true, true⟩
        ⟨FileData.present [], FileData.absent⟩).state =
      ⟨FileData.present [], FileData.absent⟩ :=
  claim_C6_amended ⟨false, false, false⟩ ⟨some ["a"], true, true, true⟩
    ⟨FileData.present [], FileData.absent⟩ [] ["a"] rfl (by decide) rfl

/-- C7 counterexample: with `--force` set, a baseline file that exists
but contains zero lines short-circuits before the force test: the
outcome is `Match` and no write is triggered, although the live listing
is fetchable — contradicting "force makes the outcome Extended and
triggers a baseline write unconditionally". -/
theorem claim_C7_cex :
    (reconcile ⟨true, false, false⟩ ⟨some ["a"], true, true, true⟩
        ⟨FileData.present [], FileData.absent⟩).outcome = Outcome.matched ∧
    (reconcile ⟨true, false, false⟩ ⟨some ["a"], true, true, true⟩
        ⟨FileData.present [], FileData.absent⟩).outcome ≠ Outcome.extended ∧
    (reconcile ⟨true, false, false⟩ ⟨some ["a"], true, true, true⟩
        ⟨FileData.present [], FileData.absent⟩).shouldWrite = false := by decide

/-- C7 (amended): when a baseline file exists, loads successfully with
at least one line, and the live listing is fetchable, `--force` makes
the outcome `Extended` with `should_write = true`, skipping comparison
entirely, even when the live listing is shorter than or unrelated to the
baseline; absent `--dryrun` (and with the OS calls succeeding) the
baseline is actually rewritten from the live listing. -/
theorem claim_C7_amended (pol : Policy) (env : RepoEnv) (st : RepoState)
    (c : List Char) (baseline live : List String)
    (hid : st.idFile = FileData.present c)
    (hread : read_id_file c = baseline)
    (hne : baseline ≠ [])
    (hprov : env.provider = some live)
    (hforce : pol.force = true) :
    (reconcile pol env st).outcome = Outcome.extended ∧
    (reconcile pol env st).shouldWrite = true ∧
    (pol.dryrun = false → env.removeOk = true → env.renameOk = true →
      env.writeOk = true →
      (reconcile pol env st).wrote = true ∧
      (reconcile pol env st).state.idFile =
        FileData.present (write_id_file live)) := by
  have hne' : baseline.isEmpty = false := by
    rcases baseline with _ | ⟨x, xs⟩
    · exact absurd rfl hne
    · rfl
  have hcl : classify pol env st = (Outcome.extended, true, false) := by
    simp [classify, hid, hprov, hread, hne', hforce]
  refine ⟨?_, ?_, ?_⟩
  · simp [reconcile_outcome, hcl]
  · simp [reconcile_shouldWrite, hcl]
  · intro hdry hrm hrn hw
    have hwp : writePhase pol env st (env.provider.getD []) true =
        (true, false, ⟨FileData.present (write_id_file live),
          FileData.present c⟩) := by
      rw [hprov]
      simp [writePhase, hdry, hid, hrm, hrn, hw]
    constructor
    · simp [reconcile_wrote, hcl, hwp]
    · simp [reconcile_state, hcl, hwp]

/-- Witness for the amended C7: live listing `["z"]` is both shorter
than and unrelated to the stored baseline `["a","b"]`; force still
rewrites. -/
theorem claim_C7_amended_witness :
    (reconcile ⟨true, false, false⟩ ⟨some ["z"], true, true, true⟩
        ⟨FileData.present (write_id_file ["a", "b"]),
          FileData.absent⟩).outcome = Outcome.extended ∧
    (reconcile ⟨true, false, false⟩ ⟨some ["z"], true, true, true⟩
        ⟨FileData.present (write_id_file ["a", "b"]),
          FileData.absent⟩).shouldWrite = true ∧
    ((false : Bool) = false → (true : Bool) = true → (true : Bool) = true →
      (true : Bool) = true →
      (reconcile ⟨true, false, false⟩ ⟨some ["z"], true, true, true⟩
        ⟨FileData.present (write_id_file ["a", "b"]),
          FileData.absent⟩).wrote = true ∧
      (reconcile ⟨true, false, false⟩ ⟨some ["z"], true, true, true⟩
        ⟨FileData.present (write_id_file ["a", "b"]),
          FileData.absent⟩).state.idFile =
        FileData.present (write_id_file ["z"])) :=
  claim_C7_amended ⟨true, false, false⟩ ⟨some ["z"], true, true, true⟩
    ⟨FileData.present (write_id_file ["a", "b"]), FileData.absent⟩
    (write_id_file ["a", "b"]) ["a", "b"] ["z"]
    rfl (by decide) (by decide) rfl rfl

/-- C8: `--dryrun` never changes the outcome classification, the
`write_file` decision or the `ret_code` contribution; under `--dryrun`
no file is created, modified, renamed or deleted, nothing is written and
no exception can escape the write block. -/
theorem claim_C8 (f i : Bool) (env : RepoEnv) (st : RepoState) :
    (reconcile ⟨f, i, true⟩ env st).outcome =
      (reconcile ⟨f, i, false⟩ env st).outcome ∧
    (reconcile ⟨f, i, true⟩ env st).shouldWrite =
      (reconcile ⟨f, i, false⟩ env st).shouldWrite ∧
    (reconcile ⟨f, i, true⟩ env st).ret1 =
      (reconcile ⟨f, i, false⟩ env st).ret1 ∧
    (reconcile ⟨f, i, true⟩ env st).state = st ∧
    (reconcile ⟨f, i, true⟩ env st).wrote = false ∧
    (reconcile ⟨f, i, true⟩ env st).exc = false := by
  have hcl : classify ⟨f, i, true⟩ env st = classify ⟨f, i, false⟩ env st := rfl
  refine ⟨?_, ?_, ?_, ?_, ?_, ?_⟩
  · rw [reconcile_outcome, reconcile_outcome, hcl]
  · rw [reconcile_shouldWrite, reconcile_shouldWrite, hcl]
  · rw [reconcile_ret1, reconcile_ret1, hcl]
  · rw [reconcile_state]
    cases (classify ⟨f, i, true⟩ env st).2.1 <;> simp [writePhase]
  · rw [reconcile_wrote]
    cases (classify ⟨f, i, true⟩ env st).2.1 <;> simp [writePhase]
  · rw [reconcile_exc]
    cases (classify ⟨f, i, true⟩ env st).2.1 <;> simp [writePhase]

/-- C1: evaluation of the code at the failing input.  With no baseline
file, `--init` set and the provider failing (borg exits non-zero), the
code ignores the `False` returned by `get_borg_id_info` (line 211), sets
`write_file = True` anyway and — absent `--dryrun` — creates a baseline
file containing the reset, empty `self._borg_id_info`, with `ret_code`
untouched.  The claim (and spec §4.1) says the outcome is
`ProviderFailure` and no baseline file is created. -/
theorem claim_C1_bug :
    (reconcile ⟨false, true, false⟩ ⟨none, true, true, true⟩
        ⟨FileData.absent, FileData.absent⟩).outcome =
      Outcome.providerFailure ∧
    (reconcile ⟨false, true, false⟩ ⟨none, true, true, true⟩
        ⟨FileData.absent, FileData.absent⟩).shouldWrite = true ∧
    (reconcile ⟨false, true, false⟩ ⟨none, true, true, true⟩
        ⟨FileData.absent, FileData.absent⟩).wrote = true ∧
    (reconcile ⟨false, true, false⟩ ⟨none, true, true, true⟩
        ⟨FileData.absent, FileData.absent⟩).state.idFile =
      FileData.present [] ∧
    (reconcile ⟨false, true, false⟩ ⟨none, true, true, true⟩
        ⟨FileData.absent, FileData.absent⟩).ret1 = false := by decide

/-- A repository sets `ret_code = 1` exactly when its classification is
`Diverged`. -/
theorem reconcile_ret1_iff (pol : Policy) (env : RepoEnv) (st : RepoState) :
    (reconcile pol env st).ret1 = true ↔
      (reconcile pol env st).outcome = Outcome.diverged := by
  rw [reconcile_ret1, reconcile_outcome]
  exact (classify_cases pol env st).1

theorem check_repos_go_ok (pol : Policy) :
    ∀ (repos : List (RepoEnv × RepoState)) (acc : Bool) (n : Nat),
      check_repos_go pol repos acc = Except.ok n →
      (n = 1 ↔ (acc = true ∨
        ∃ p ∈ repos, (reconcile pol p.1 p.2).ret1 = true)) := by
  intro repos
  induction repos with
  | nil =>
    intro acc n h
    cases acc with
    | false =>
      simp [check_repos_go] at h
      subst h
      simp
    | true =>
      simp [check_repos_go] at h
      subst h
      simp
  | cons p rest ih =>
    intro acc n h
    by_cases he : (reconcile pol p.1 p.2).exc = true
    · simp [check_repos_go, he] at h
    · simp only [check_repos_go, he, if_false, Bool.false_eq_true,
        ite_false] at h
      have h2 := ih (acc || (reconcile pol p.1 p.2).ret1) n h
      rw [h2]
      simp only [Bool.or_eq_true, List.mem_cons]
      constructor
      · rintro (ha | hr)
        · rcases ha with ha | ha
          · exact Or.inl ha
          · exact Or.inr ⟨p, Or.inl rfl, ha⟩
        · obtain ⟨q, hq, hqr⟩ := hr
          exact Or.inr ⟨q, Or.inr hq, hqr⟩
      · rintro (ha | ⟨q, hq | hq, hqr⟩)
        · exact Or.inl (Or.inl ha)
        · exact Or.inl (Or.inr (hq ▸ hqr))
        · exact Or.inr ⟨q, hq, hqr⟩

/-- C2 counterexample: a repository with an existing, readable baseline
whose provider fetch fails yields classification `ProviderFailure`, yet
the run completes with exit status `0` — the code sets `ret_code = 1`
only in the comparison-failure branch, contradicting the claim that a
`ProviderFailure` makes the exit status `1`. -/
theorem claim_C2_cex :
    (reconcile ⟨false, false, false⟩ ⟨none, true, true, true⟩
        ⟨FileData.present (write_id_file ["a"]), FileData.absent⟩).outcome =
      Outcome.providerFailure ∧
    program_exit true true ⟨false, false, false⟩
        [(⟨none, true, true, true⟩,
          ⟨FileData.present (write_id_file ["a"]), FileData.absent⟩)] =
      Except.ok 0 := by
  constructor
  · decide
  · rfl

/-- C2 (amended): for a run that completes without an uncaught
exception, the exit status is `1` iff the base path was missing or not a
directory, or at least one repository's classification was `Diverged`
(i.e. an existing, readable, non-empty baseline was compared against a
fetched live listing without `--force` and the comparison failed);
`ProviderFailure`, `StoreFailure` and `MissingBaseline` leave the exit
status untouched. -/
theorem claim_C2_amended (g d : Bool) (pol : Policy)
    (repos : List (RepoEnv × RepoState)) (n : Nat)
    (h : program_exit g d pol repos = Except.ok n) :
    (n = 1 ↔ ((g && d) = false ∨
      ∃ p ∈ repos, (reconcile pol p.1 p.2).outcome = Outcome.diverged)) := by
  by_cases hs : (g && d) = true
  · rw [program_exit] at h
    simp only [sanity_check, hs, if_true, ite_true] at h
    have h2 := check_repos_go_ok pol repos false n h
    simp only [reconcile_ret1_iff] at h2
    rw [h2]
    simp [hs]
  · have hs' : (g && d) = false := by
      revert hs
      cases (g && d) <;> simp
    rw [program_exit] at h
    simp only [sanity_check, hs', Bool.false_eq_true, if_false,
      ite_false] at h
    have hn : n = 1 := by
      cases h
      rfl
    simp [hn, hs']

/-- Witness for the amended C2: one diverged repository (baseline
`["a"]`, live `["b"]`) makes the run exit `1`. -/
theorem claim_C2_amended_witness :
    program_exit true true ⟨false, false, false⟩
        [(⟨some ["b"], true, true, true⟩,
          ⟨FileData.present (write_id_file ["a"]), FileData.absent⟩)] =
      Except.ok 1 ∧
    ((1 : Nat) = 1 ↔ ((true && true) = false ∨
      ∃ p ∈ [((⟨some ["b"], true, true, true⟩ : RepoEnv),
          (⟨FileData.present (write_id_file ["a"]), FileData.absent⟩ :
            RepoState))],
        (reconcile ⟨false, false, false⟩ p.1 p.2).outcome =
          Outcome.diverged)) := by
  have hexit : program_exit true true ⟨false, false, false⟩
      [(⟨some ["b"], true, true, true⟩,
        ⟨FileData.present (write_id_file ["a"]), FileData.absent⟩)] =
      Except.ok 1 := rfl
  exact ⟨hexit, claim_C2_amended true true ⟨false, false, false⟩
    [(⟨some ["b"], true, true, true⟩,
      ⟨FileData.present (write_id_file ["a"]), FileData.absent⟩)] 1 hexit⟩

/-- C3: evaluation of the provider adapter at the failing input.  The
filtering comprehension of `get_borg_id_info` calls `bytes.startswith`
with a str pattern, so a successful `borg list` with any output at all
raises an uncaught `TypeError` that escapes the repository loop, instead
of filtering noise lines and returning the rest; only an empty stdout
survives.  (The `except` clause around the provider call catches only
`subprocess.CalledProcessError`, which `check=False` makes unreachable;
OS errors of `os.remove`/`os.rename` in the write block are equally
uncaught, cf. the `exc` component of `writePhase`.) -/
theorem claim_C3_bug :
    get_borg_id_info [['a', 'b', 'c']] = PyResult.typeError ∧
    get_borg_id_info [] = PyResult.ok [] := by decide

/-- C9 counterexample: a repository with no baseline file and no
`--init` yields `MissingBaseline` on the first run, changes nothing, and
yields `MissingBaseline` — not `Match` — on the second run as well. -/
theorem claim_C9_cex :
    (reconcile ⟨false, false, false⟩ ⟨some ["a"], true, true, true⟩
        ((reconcile ⟨false, false, false⟩ ⟨some ["a"], true, true, true⟩
          ⟨FileData.absent, FileData.absent⟩).state)).outcome =
      Outcome.missingBaseline ∧
    (reconcile ⟨false, false, false⟩ ⟨some ["a"], true, true, true⟩
        ((reconcile ⟨false, false, false⟩ ⟨some ["a"], true, true, true⟩
          ⟨FileData.absent, FileData.absent⟩).state)).outcome ≠
      Outcome.matched := by decide

/-- C9 (amended): if the first run ends in `Match`, or in `Extended`
with the write actually performed, and `--force` is not set, then a
second run with the same policy and an unchanged live listing (whose
lines, as `splitlines` output, contain no newline) yields `Match` and
writes nothing. -/
theorem claim_C9_amended (pol : Policy) (env : RepoEnv) (st : RepoState)
    (hforce : pol.force = false)
    (hnl : ∀ l ∈ env.provider.getD [], '\n' ∉ l.data)
    (h : (reconcile pol env st).outcome = Outcome.matched ∨
      ((reconcile pol env st).outcome = Outcome.extended ∧
        (reconcile pol env st).wrote = true)) :
    (reconcile pol env ((reconcile pol env st).state)).outcome =
      Outcome.matched ∧
    (reconcile pol env ((reconcile pol env st).state)).shouldWrite = false ∧
    (reconcile pol env ((reconcile pol env st).state)).wrote = false ∧
    (reconcile pol env ((reconcile pol env st).state)).state =
      (reconcile pol env st).state := by
  rcases h with hm | ⟨hx, hw⟩
  · have hcl : (classify pol env st).1 = Outcome.matched := by
      rw [← reconcile_outcome]
      exact hm
    have hsw := ((classify_cases pol env st).2.1 hcl).1
    have hstate : (reconcile pol env st).state = st := by
      rw [reconcile_state, hsw, writePhase_false]
    rw [hstate]
    refine ⟨hm, ?_, ?_, hstate⟩
    · rw [reconcile_shouldWrite]
      exact hsw
    · rw [reconcile_wrote, hsw, writePhase_false]
  · have hclx : (classify pol env st).1 = Outcome.extended := by
      rw [← reconcile_outcome]
      exact hx
    have hps : env.provider.isSome = true := (classify_cases pol env st).2.2 hclx
    obtain ⟨live, hlive⟩ := Option.isSome_iff_exists.mp hps
    have hb : env.provider.getD [] = live := by
      rw [hlive]
      rfl
    have hw' : (writePhase pol env st (env.provider.getD [])
        (classify pol env st).2.1).1 = true := by
      rw [← reconcile_wrote]
      exact hw
    obtain ⟨hidf, _⟩ := writePhase_wrote_idFile pol env st
      (env.provider.getD []) (classify pol env st).2.1 hw'
    have hid2 : (reconcile pol env st).state.idFile =
        FileData.present (write_id_file live) := by
      rw [reconcile_state, hidf, hb]
    rw [hb] at hnl
    have hcl2 := classify_after_write pol env ((reconcile pol env st).state)
      live hforce hlive hnl hid2
    refine ⟨?_, ?_, ?_, ?_⟩
    · rw [reconcile_outcome, hcl2]
    · rw [reconcile_shouldWrite, hcl2]
    · rw [reconcile_wrote, hcl2]
      simp [writePhase_false]
    · rw [reconcile_state, hcl2]
      simp [writePhase_false]

/-- Witness for the amended C9: first run extends the baseline
`["a","b"]` to the live listing `["a","b","c"]`; the second run matches
and writes nothing. -/
theorem claim_C9_amended_witness :
    (reconcile ⟨false, false, false⟩ ⟨some ["a", "b", "c"], true, true, true⟩
        ((reconcile ⟨false, false, false⟩
          ⟨some ["a", "b", "c"], true, true, true⟩
          ⟨FileData.present (write_id_file ["a", "b"]),
            FileData.absent⟩).state)).outcome = Outcome.matched ∧
    (reconcile ⟨false, false, false⟩ ⟨some ["a", "b", "c"], true, true, true⟩
        ((reconcile ⟨false, false, false⟩
          ⟨some ["a", "b", "c"], true, true, true⟩
          ⟨FileData.present (write_id_file ["a", "b"]),
            FileData.absent⟩).state)).shouldWrite = false ∧
    (reconcile ⟨false, false, false⟩ ⟨some ["a", "b", "c"], true, true, true⟩
        ((reconcile ⟨false, false, false⟩
          ⟨some ["a", "b", "c"], true, true, true⟩
          ⟨FileData.present (write_id_file ["a", "b"]),
            FileData.absent⟩).state)).wrote = false ∧
    (reconcile ⟨false, false, false⟩ ⟨some ["a", "b", "c"], true, true, true⟩
        ((reconcile ⟨false, false, false⟩
          ⟨some ["a", "b", "c"], true, true, true⟩
          ⟨FileData.present (write_id_file ["a", "b"]),
            FileData.absent⟩).state)).state =
      (reconcile ⟨false, false, false⟩
        ⟨some ["a", "b", "c"], true, true, true⟩
        ⟨FileData.present (write_id_file ["a", "b"]),
          FileData.absent⟩).state :=
  claim_C9_amended ⟨false, false, false⟩
    ⟨some ["a", "b", "c"], true, true, true⟩
    ⟨FileData.present (write_id_file ["a", "b"]), FileData.absent⟩
    rfl (by decide) (Or.inr ⟨by decide, by decide⟩)

end BorgIdVerify
